import Mathlib

/-!
Verification of the Idea-Hub AI idea gateway (supabase edge function `ai-ideas`)
against its natural-language specification.

Text is embedded as `List Char` (one entry per source character); the regex
replacements of `sanitizeMarkdown` are embedded as direct scanners over the
character list, each one implementing exactly the pattern used in the source
(`/<script[^>]*>[\s\S]*?<\/script>/gi`, `/<\/?tag[^>]*>/gi`,
`/javascript:/gi`, `/data:/gi`) with JavaScript `String.replace` semantics:
scan left to right, remove each non-overlapping match, continue scanning
immediately after the removed match.
-/

namespace IdeaHub

/-- ASCII lower-casing, the character equivalence used by the `i` regex flag. -/
def lowerChar (c : Char) : Char :=
  if 'A' ≤ c && c ≤ 'Z' then Char.ofNat (c.toNat + 32) else c

/-- Case-insensitive character equality (regex `i` flag). -/
def ciEq (a b : Char) : Bool := lowerChar a == lowerChar b

/-- Case-insensitive literal match at the head of the input: returns the rest
of the input after the pattern, or `none` when the pattern does not match. -/
def stripPrefCI : List Char → List Char → Option (List Char)
  | [], l => some l
  | _ :: _, [] => none
  | p :: ps, c :: cs => if ciEq p c then stripPrefCI ps cs else none

/-- Whether the pattern occurs (case-insensitively) anywhere in the input. -/
def hasMatchCI (pat : List Char) : List Char → Bool
  | [] => (stripPrefCI pat []).isSome
  | c :: cs => (stripPrefCI pat (c :: cs)).isSome || hasMatchCI pat cs

/-- Consume `[^>]*>`: drop characters up to and including the first `>`;
`none` when no `>` remains (the regex then fails to match). -/
def dropUntilGt : List Char → Option (List Char)
  | [] => none
  | c :: cs => if c = '>' then some cs else dropUntilGt cs

/-- Removal of every non-overlapping case-insensitive occurrence of a literal
pattern, scanning left to right — JavaScript `content.replace(/pat/gi, '')`
for a literal `pat`. Structured on explicit fuel (one unit per character
examined); `removeLitCI` below supplies fuel equal to the input length, which
is always sufficient because each step consumes at least one character. -/
def removeLitCIF (pat : List Char) : Nat → List Char → List Char
  | _, [] => []
  | 0, l => l
  | fuel + 1, c :: cs =>
    match stripPrefCI pat (c :: cs) with
    | some rest => removeLitCIF pat fuel rest
    | none => c :: removeLitCIF pat fuel cs

def removeLitCI (pat : List Char) (l : List Char) : List Char :=
  removeLitCIF pat l.length l

/-- After the leading `<` of a candidate tag match: `\/?tag[^>]*>`
(optional slash, literal tag name case-insensitively, then up to the first
`>`). Returns the input remaining after the full match. -/
def tagRest (tag : List Char) (cs : List Char) : Option (List Char) :=
  let cs' := match cs with
    | '/' :: rest => rest
    | _ => cs
  match stripPrefCI tag cs' with
  | none => none
  | some r => dropUntilGt r

/-- `content.replace(new RegExp("<\\/?" + tag + "[^>]*>", 'gi'), '')`:
remove every opening or closing tag for the given element name. -/
def removeTagsF (tag : List Char) : Nat → List Char → List Char
  | _, [] => []
  | 0, l => l
  | fuel + 1, c :: cs =>
    if c = '<' then
      match tagRest tag cs with
      | some rest => removeTagsF tag fuel rest
      | none => c :: removeTagsF tag fuel cs
    else c :: removeTagsF tag fuel cs

def removeTags (tag : List Char) (l : List Char) : List Char :=
  removeTagsF tag l.length l

/-- The lazy tail of the script-block regex, `[\s\S]*?<\/script>`: skip to the
first case-insensitive `</script>` and return what follows it; `none` when no
closing tag exists (the whole block match then fails). -/
def findCloseScript : List Char → Option (List Char)
  | [] => none
  | c :: cs =>
    if c = '<' then
      match stripPrefCI ('/' :: 's' :: 'c' :: 'r' :: 'i' :: 'p' :: 't' :: '>' :: []) cs with
      | some r => some r
      | none => findCloseScript cs
    else findCloseScript cs

/-- `content.replace(/<script[^>]*>[\s\S]*?<\/script>/gi, '')`: remove
complete script blocks with their content. -/
def removeScriptBlocksF : Nat → List Char → List Char
  | _, [] => []
  | 0, l => l
  | fuel + 1, c :: cs =>
    if c = '<' then
      match tagRest ('s' :: 'c' :: 'r' :: 'i' :: 'p' :: 't' :: []) cs with
      | some afterOpen =>
        match findCloseScript afterOpen with
        | some rest => removeScriptBlocksF fuel rest
        | none => c :: removeScriptBlocksF fuel cs
      | none => c :: removeScriptBlocksF fuel cs
    else c :: removeScriptBlocksF fuel cs

def removeScriptBlocks (l : List Char) : List Char :=
  removeScriptBlocksF l.length l

/-- The JavaScript `String.prototype.trim` whitespace set (the characters
relevant to this code base: ASCII whitespace plus NBSP, BOM and the Unicode
line separators). -/
def isJsSpace (c : Char) : Bool :=
  c = ' ' || c = '\t' || c = '\n' || c = '\r' ||
  c = Char.ofNat 11 || c = Char.ofNat 12 ||
  c = Char.ofNat 160 || c = Char.ofNat 65279 ||
  c = Char.ofNat 8232 || c = Char.ofNat 8233

/-- `content.trim()`. -/
def trimJs (l : List Char) : List Char :=
  ((l.dropWhile isJsSpace).reverse.dropWhile isJsSpace).reverse

/-- The denylisted element names of `sanitizeMarkdown`, in source order. -/
def dangerousTags : List (List Char) :=
  ['s' :: 'c' :: 'r' :: 'i' :: 'p' :: 't' :: [],
   'i' :: 'f' :: 'r' :: 'a' :: 'm' :: 'e' :: [],
   'o' :: 'b' :: 'j' :: 'e' :: 'c' :: 't' :: [],
   'e' :: 'm' :: 'b' :: 'e' :: 'd' :: [],
   'f' :: 'o' :: 'r' :: 'm' :: [],
   'i' :: 'n' :: 'p' :: 'u' :: 't' :: [],
   't' :: 'e' :: 'x' :: 't' :: 'a' :: 'r' :: 'e' :: 'a' :: [],
   'b' :: 'u' :: 't' :: 't' :: 'o' :: 'n' :: []]

def javascriptColon : List Char :=
  'j' :: 'a' :: 'v' :: 'a' :: 's' :: 'c' :: 'r' :: 'i' :: 'p' :: 't' :: ':' :: []

def dataColon : List Char := 'd' :: 'a' :: 't' :: 'a' :: ':' :: []

/-- `sanitizeMarkdown` from `supabase/functions/ai-ideas/index.ts`: empty
input returns empty; remove script blocks; remove each denylisted tag; strip
`javascript:` and `data:`; fail hard above 10 MiB; trim. -/
def sanitizeMarkdown (content : List Char) : Except String (List Char) :=
  if content = [] then .ok []
  else
    let c1 := removeScriptBlocks content
    let c2 := dangerousTags.foldl (fun acc tag => removeTags tag acc) c1
    let c3 := removeLitCI javascriptColon c2
    let c4 := removeLitCI dataColon c3
    if c4.length > 10 * 1024 * 1024 then
      .error "Content too large (max 10MB)"
    else
      .ok (trimJs c4)

/-! ## JSON values and payloads -/

/-- A parsed JSON value, as produced by `req.json()`. JSON has no `undefined`,
so an absent object field is `Option.none` at the use sites below. -/
inductive JVal where
  | null
  | bool (b : Bool)
  | num (n : Int)
  | str (s : String)
  | arr (xs : List JVal)

/-- JavaScript truthiness of an (optionally absent) field value:
`undefined`, `null`, `false`, `0` and `''` are falsy; arrays are truthy. -/
def truthy : Option JVal → Bool
  | none => false
  | some .null => false
  | some (.bool b) => b
  | some (.num n) => n != 0
  | some (.str s) => s != ""
  | some (.arr _) => true

/-- The request body fields that the gateway reads. The object spread
(`{...createData}` / `{...updateData}`) forwards every one of these to the
store, so `user_id` is part of the model even though the validator never
looks at it. -/
structure Payload where
  title : Option JVal := none
  description : Option JVal := none
  status : Option JVal := none
  tags : Option JVal := none
  color : Option JVal := none
  user_id : Option JVal := none

/-! ## Validation (`validateIdeaData`) -/

def decDigit (c : Char) : Bool := '0' ≤ c && c ≤ '9'

def hexDigit (c : Char) : Bool :=
  decDigit c || ('a' ≤ c && c ≤ 'f') || ('A' ≤ c && c ≤ 'F')

/-- `/^#[0-9A-F]{6}$/i.test(s)`. -/
def isHexColor (s : String) : Bool :=
  match s.data with
  | '#' :: rest => rest.length == 6 && rest.all hexDigit
  | _ => false

/-- `!data.title || typeof data.title !== 'string' || data.title.trim().length === 0`. -/
def badTitle (t : Option JVal) : Bool :=
  !truthy t ||
  (match t with
   | some (.str s) => trimJs s.data == []
   | _ => true)

/-- `data.title.length > 500` under the truthy guard; `.length` exists on
strings and arrays, and `undefined > 500` is `false` for the other values. -/
def jsLenGt500 : Option JVal → Bool
  | some (.str s) => decide (s.length > 500)
  | some (.arr xs) => decide (xs.length > 500)
  | _ => false

def isStrVal : Option JVal → Bool
  | some (.str _) => true
  | _ => false

def statusValues : List String := ["idea", "research", "progress", "launched", "archived"]

/-- `!['idea',...].includes(data.status)` (`includes` uses `===`, so a
non-string status is never a member). -/
def badStatusVal : Option JVal → Bool
  | some (.str s) => !(statusValues.contains s)
  | _ => true

/-- `!Array.isArray(data.tags) || !data.tags.every(tag => typeof tag === 'string')`. -/
def badTagsVal : Option JVal → Bool
  | some (.arr xs) => !(xs.all fun v => match v with | .str _ => true | _ => false)
  | _ => true

/-- `typeof data.color !== 'string' || !/^#[0-9A-F]{6}$/i.test(data.color)`. -/
def badColorVal : Option JVal → Bool
  | some (.str s) => !isHexColor s
  | _ => true

def titleRequiredMsg : String := "Title is required and must be a non-empty string"
def titleLengthMsg : String := "Title must be less than 500 characters"
def descriptionMsg : String := "Description must be a string"
def statusMsg : String := "Status must be one of: idea, research, progress, launched, archived"
def tagsMsg : String := "Tags must be an array of strings"
def colorMsg : String := "Color must be a valid hex color code"

/-- `validateIdeaData` from `supabase/functions/ai-ideas/index.ts`: the six
independent checks, each pushing its message, in source order. -/
def validateIdeaData (d : Payload) : List String :=
  (if badTitle d.title then [titleRequiredMsg] else []) ++
  (if truthy d.title && jsLenGt500 d.title then [titleLengthMsg] else []) ++
  (if truthy d.description && !isStrVal d.description then [descriptionMsg] else []) ++
  (if truthy d.status && badStatusVal d.status then [statusMsg] else []) ++
  (if truthy d.tags && badTagsVal d.tags then [tagsMsg] else []) ++
  (if truthy d.color && badColorVal d.color then [colorMsg] else [])

/-! ## `parseInt` -/

def hexVal (c : Char) : Nat :=
  if decDigit c then c.toNat - 48
  else if 'a' ≤ c && c ≤ 'f' then c.toNat - 87
  else c.toNat - 55

def natOfDigits (base : Nat) (ds : List Char) : Nat :=
  ds.foldl (fun acc c => acc * base + hexVal c) 0

/-- JavaScript `parseInt(s)` (radix auto-detection): leading whitespace, an
optional sign, then the longest prefix of decimal digits — or hexadecimal
digits after a `0x`/`0X` prefix. `none` models `NaN`. -/
def parseIntJS (s : String) : Option Int :=
  let l := s.data.dropWhile isJsSpace
  let sl : Int × List Char :=
    match l with
    | '-' :: r => (-1, r)
    | '+' :: r => (1, r)
    | _ => (1, l)
  match sl.2 with
  | '0' :: x :: r =>
    if x = 'x' || x = 'X' then
      let ds := r.takeWhile hexDigit
      if ds = [] then none else some (sl.1 * (natOfDigits 16 ds : Nat))
    else
      some (sl.1 * (natOfDigits 10 (('0' :: x :: r).takeWhile decDigit) : Nat))
  | rest =>
    let ds := rest.takeWhile decDigit
    if ds = [] then none else some (sl.1 * (natOfDigits 10 ds : Nat))

/-! ## Data model and external collaborators -/

/-- A row of the `ideas` table (the columns this gateway reads or writes;
`group_id` and `original_description` are never touched by it). Timestamps
are abstract instants (`Nat`). -/
structure Idea where
  id : String
  user_id : String
  title : String
  description : Option String
  status : String
  tags : List String
  color : String
  image_url : Option String := none
  created_at : Nat := 0
  updated_at : Nat := 0
  deriving Repr, DecidableEq

/-- A row returned by the `validate_api_key` RPC. -/
structure KeyRow where
  api_key_id : String
  user_id : String
  permissions : List String
  rate_limit_per_hour : Nat
  is_valid : Bool
  deriving Repr, DecidableEq

/-- The external collaborators: the two database RPCs (whose outcome the
gateway only observes), plus the id and clock the database would supply for
an insert. An RPC outcome `.error ()` models `{error}`; `.ok rows` a data
payload (`null` data is the empty list). -/
structure Env where
  validate_api_key : String → Except Unit (List KeyRow)
  check_rate_limit : String → String → Nat → Except Unit Bool
  freshId : String
  now : Nat

/-- Case-sensitive literal prefix test (`String.prototype.startsWith`). -/
def hasPref : List Char → List Char → Bool
  | [], _ => true
  | _ :: _, [] => false
  | p :: ps, c :: cs => p == c && hasPref ps cs

/-- `authenticateApiKey` from the source: format check, RPC call, empty-result
check, `is_valid` check — each failure thrown as an `Error` with the given
message. -/
def authenticateApiKey (env : Env) (apiKey : String) : Except String KeyRow :=
  if apiKey == "" || !hasPref ('i' :: 'a' :: 'h' :: '_' :: []) apiKey.data then
    .error "Invalid API key format"
  else
    match env.validate_api_key apiKey with
    | .error _ => .error "Authentication failed"
    | .ok [] => .error "Invalid API key"
    | .ok (k :: _) =>
      if !k.is_valid then .error "API key is expired or inactive"
      else .ok k

/-- `checkRateLimit` from the source: RPC error and denial are both thrown. -/
def checkRateLimit (env : Env) (apiKeyId endpoint : String) (rateLimit : Nat) :
    Except String Bool :=
  match env.check_rate_limit apiKeyId endpoint rateLimit with
  | .error _ => .error "Rate limiting failed"
  | .ok b => if !b then .error "Rate limit exceeded" else .ok b

/-! ## Record store operations

The `ideas` table lives in the managed database, outside this repository's
source; its behaviour under the query-builder calls the gateway issues is
modelled here as list operations, per the spec's Record Store interface
(`get(id, ownerId)`, `query(filters, order, range)`, `insert`,
`update(id, ownerId, patch)`). -/

def matchesIdOwner (id uid : String) (r : Idea) : Bool :=
  r.id == id && r.user_id == uid

/-- `.select('*').eq('id', id).eq('user_id', uid).single()`: the lookup
succeeds exactly when one row matches both filters. -/
def getSingle (store : List Idea) (id uid : String) : Option Idea :=
  match store.filter (matchesIdOwner id uid) with
  | [r] => some r
  | _ => none

def insertByUpdatedDesc (r : Idea) : List Idea → List Idea
  | [] => [r]
  | x :: xs => if x.updated_at < r.updated_at then r :: x :: xs else x :: insertByUpdatedDesc r xs

/-- `.order('updated_at', { ascending: false })`. -/
def sortByUpdatedDesc (l : List Idea) : List Idea := l.foldr insertByUpdatedDesc []

/-- `title.ilike.%s%,description.ilike.%s%` as an or-filter: case-insensitive
substring match on the title or on a non-null description. -/
def searchMatches (search : String) (r : Idea) : Bool :=
  hasMatchCI search.data r.title.data ||
  (match r.description with
   | some d => hasMatchCI search.data d.data
   | none => false)

/-- Modelled from the spec: the Record Store slices the ordered result to
`[offset, offset+limit)` (the builder call is `range(offset, offset+limit-1)`
with inclusive bounds). Range values outside the store's domain — negative or
`NaN` (`none`) bounds — are modelled as a store-side query error. -/
def applyRange (l : List Idea) (offset limit : Option Int) : Except Unit (List Idea) :=
  match offset, limit with
  | some o, some lim =>
    if 0 ≤ o && 0 ≤ lim then .ok ((l.drop o.toNat).take lim.toNat) else .error ()
  | _, _ => .error ()

/-- The collection query the GET branch builds: owner scope, optional status
equality filter, optional search filter, order by `updated_at` descending,
then the range slice. -/
def ideasQuery (store : List Idea) (uid : String) (status search : Option String)
    (offset limit : Option Int) : Except Unit (List Idea) :=
  let rows := store.filter (fun r => r.user_id == uid)
  let rows := match status with
    | some s => rows.filter (fun r => r.status == s)
    | none => rows
  let rows := match search with
    | some s => rows.filter (searchMatches s)
    | none => rows
  applyRange (sortByUpdatedDesc rows) offset limit

def jvalStrings : List JVal → List String :=
  List.filterMap fun v => match v with | .str s => some s | _ => none

/-- The row built by `insert([sanitizedCreateData]).select().single()`:
`title` and `description` already sanitized, `user_id` forced to the key's
user id; `status`, `tags` and `color` come from the body spread when the body
supplied them. Modelled from the spec: the database generates the id and the
timestamps and fills the column defaults (`status` `'idea'`, `color` `'#FFF'`)
for absent columns. -/
def insertIdea (env : Env) (uid title : String) (description : Option String)
    (p : Payload) : Idea :=
  { id := env.freshId
    user_id := uid
    title := title
    description := description
    status := match p.status with
      | some (.str s) => s
      | _ => "idea"
    tags := match p.tags with
      | some (.arr xs) => jvalStrings xs
      | _ => []
    color := match p.color with
      | some (.str s) => s
      | _ => "#FFF"
    image_url := none
    created_at := env.now
    updated_at := env.now }

/-- The columns a PUT sends to the store. `none` = column absent from the
patch (left untouched by the update). -/
structure UpdatePatch where
  title : Option String := none
  description : Option String := none
  status : Option JVal := none
  tags : Option JVal := none
  color : Option JVal := none
  user_id : Option JVal := none

/-- `sanitizedUpdateData`: the body spread with `title` and `description`
replaced by their sanitized versions when truthy and set to `undefined` when
falsy (`updateData.title ? sanitizeMarkdown(updateData.title) : undefined`),
followed by deletion of the `undefined` entries. Every other body field —
including a client-supplied `user_id` — passes through verbatim.
Sanitization failures are thrown. -/
def buildUpdatePatch (d : Payload) : Except String UpdatePatch := do
  let t ← match d.title with
    | some (.str s) =>
      if s == "" then pure none
      else (sanitizeMarkdown s.data).map fun l => some (String.mk l)
    | some v =>
      if truthy (some v) then .error "content.replace is not a function"
      else pure none
    | none => pure none
  let de ← match d.description with
    | some (.str s) =>
      if s == "" then pure none
      else (sanitizeMarkdown s.data).map fun l => some (String.mk l)
    | some v =>
      if truthy (some v) then .error "content.replace is not a function"
      else pure none
    | none => pure none
  pure { title := t, description := de, status := d.status, tags := d.tags,
         color := d.color, user_id := d.user_id }

/-- Writing a patch into a stored row: each column present in the patch is
set (a `user_id` in the patch rewrites the row's owner). Non-string values in
the pass-through columns are only reachable for falsy bodies and are modelled
as leaving the column unchanged. `updated_at` is refreshed — modelled from the
spec: "`updatedAt` refreshed on every mutation" (a database-side trigger). -/
def applyPatch (p : UpdatePatch) (now : Nat) (r : Idea) : Idea :=
  { r with
    title := p.title.getD r.title
    description := match p.description with
      | some d => some d
      | none => r.description
    status := match p.status with
      | some (.str s) => s
      | _ => r.status
    tags := match p.tags with
      | some (.arr xs) => jvalStrings xs
      | _ => r.tags
    color := match p.color with
      | some (.str s) => s
      | _ => r.color
    user_id := match p.user_id with
      | some (.str s) => s
      | _ => r.user_id
    updated_at := now }

/-- `.update(...).eq('id', id).eq('user_id', uid).select().single()`: every
row matching both filters is rewritten; the returned rows are the rewritten
matches, and `.single()` succeeds exactly when there is one of them. -/
def updateWhere (store : List Idea) (id uid : String) (f : Idea → Idea) :
    List Idea × List Idea :=
  (store.map fun r => if matchesIdOwner id uid r then f r else r,
   (store.filter (matchesIdOwner id uid)).map f)

/-! ## The request handler (`serve` in `supabase/functions/ai-ideas/index.ts`) -/

structure Request where
  method : String
  path : String
  apiKey : Option String := none
  queryStatus : Option String := none
  queryLimit : Option String := none
  queryOffset : Option String := none
  querySearch : Option String := none
  body : Payload := {}

inductive RespBody where
  /-- `Response(null, ...)` for the preflight branch. -/
  | empty
  /-- `{error}` -/
  | err (msg : String)
  /-- `{error, details}` -/
  | errDetails (msg : String) (details : List String)
  /-- `{data}` for a single record -/
  | one (data : Idea)
  /-- `{data, meta: {limit, offset, count}}`; `none` serializes like `NaN`. -/
  | many (data : List Idea) (limit offset : Option Int) (count : Nat)
  /-- `{data, message}` from the DELETE branch -/
  | deleted (data : Idea) (message : String)
  deriving DecidableEq

structure Response where
  status : Nat
  body : RespBody
  deriving DecidableEq

/-- A response together with the state of the `ideas` table afterwards. -/
structure HandlerOut where
  resp : Response
  store : List Idea

def lastSegmentAux : List Char → List Char → List Char
  | acc, [] => acc.reverse
  | acc, c :: cs => if c = '/' then lastSegmentAux [] cs else lastSegmentAux (c :: acc) cs

/-- `url.pathname.split('/').pop()`: the characters after the last `/`. -/
def lastSegment (path : String) : String :=
  String.mk (lastSegmentAux [] path.data)

/-- `toLowerCase()` (ASCII range, all that HTTP verbs use). -/
def lowerStr (s : String) : String := String.mk (s.data.map lowerChar)

/-- `method === 'get' ? 'read' : 'write'` on the lower-cased verb. -/
def requiredPermission (method : String) : String :=
  if lowerStr method == "get" then "read" else "write"

/-- A query parameter under the code's truthiness guards (`if (status)`,
`if (search)`): absent and empty strings are no filter. -/
def normQuery : Option String → Option String
  | some s => if s != "" then some s else none
  | none => none

/-- `Math.min(parseInt(params.get('limit') || '50'), 100)`: the `||` default
covers the absent and empty cases, there is no lower clamp, and a
non-numeric value is `NaN` (`none`), which `Math.min` propagates. -/
def effLimit (q : Option String) : Option Int :=
  (parseIntJS (match q with | some s => if s != "" then s else "50" | none => "50")).map
    fun n => min n 100

/-- `parseInt(params.get('offset') || '0')`: default 0, no sign check. -/
def effOffset (q : Option String) : Option Int :=
  parseIntJS (match q with | some s => if s != "" then s else "0" | none => "0")

/-- The description sent on POST:
`createData.description ? sanitizeMarkdown(createData.description) : null`. -/
def postDescription : Option JVal → Except String (Option String)
  | some (.str ds) =>
    if ds == "" then Except.ok none
    else (sanitizeMarkdown ds.data).map fun l => some (String.mk l)
  | some v =>
    if truthy (some v) then Except.error "content.replace is not a function"
    else Except.ok none
  | none => Except.ok none

/-- The `switch (req.method)` block, reached after authentication, the
permission check and the rate limit. -/
def dispatch (env : Env) (store : List Idea) (req : Request) (keyData : KeyRow) :
    Except String HandlerOut :=
  let ideaId := lastSegment req.path
  if req.method == "GET" then
    if ideaId != "" && ideaId != "ai-ideas" then
      match getSingle store ideaId keyData.user_id with
      | none => .ok ⟨⟨404, .err "Idea not found"⟩, store⟩
      | some idea => .ok ⟨⟨200, .one idea⟩, store⟩
    else
      let limit := effLimit req.queryLimit
      let offset := effOffset req.queryOffset
      match ideasQuery store keyData.user_id (normQuery req.queryStatus)
          (normQuery req.querySearch) offset limit with
      | .error _ => .ok ⟨⟨500, .err "Failed to fetch ideas"⟩, store⟩
      | .ok ideas => .ok ⟨⟨200, .many ideas limit offset ideas.length⟩, store⟩
  else if req.method == "POST" then
    let createErrors := validateIdeaData req.body
    if createErrors != [] then
      .ok ⟨⟨400, .errDetails "Validation failed" createErrors⟩, store⟩
    else
      match req.body.title with
      | some (.str ts) =>
        match sanitizeMarkdown ts.data with
        | .error e => .error e
        | .ok t1 =>
          match postDescription req.body.description with
          | .error e => .error e
          | .ok desc =>
            let newIdea := insertIdea env keyData.user_id (String.mk t1) desc req.body
            .ok ⟨⟨201, .one newIdea⟩, store ++ [newIdea]⟩
      | _ => .error "content.replace is not a function"
  else if req.method == "PUT" then
    if ideaId == "" || ideaId == "ai-ideas" then
      .ok ⟨⟨400, .err "Idea ID required for updates"⟩, store⟩
    else
      let updateErrors := validateIdeaData req.body
      if updateErrors != [] then
        .ok ⟨⟨400, .errDetails "Validation failed" updateErrors⟩, store⟩
      else
        match buildUpdatePatch req.body with
        | .error e => .error e
        | .ok patch =>
          match updateWhere store ideaId keyData.user_id (applyPatch patch env.now) with
          | (newStore, [r]) => .ok ⟨⟨200, .one r⟩, newStore⟩
          | (newStore, _) =>
            .ok ⟨⟨404, .err "Failed to update idea or idea not found"⟩, newStore⟩
  else if req.method == "DELETE" then
    if ideaId == "" || ideaId == "ai-ideas" then
      .ok ⟨⟨400, .err "Idea ID required for deletion"⟩, store⟩
    else
      match updateWhere store ideaId keyData.user_id
          (fun r => { r with status := "archived", updated_at := env.now }) with
      | (newStore, [r]) =>
        .ok ⟨⟨200, .deleted r "Idea archived successfully"⟩, newStore⟩
      | (newStore, _) =>
        .ok ⟨⟨404, .err "Failed to delete idea or idea not found"⟩, newStore⟩
  else .ok ⟨⟨405, .err "Method not allowed"⟩, store⟩

/-- The body of the `try` block: every thrown `Error` is an `Except.error`
carrying `error.message`, every constructed `Response` an `Except.ok`. -/
def serveCore (env : Env) (store : List Idea) (req : Request) :
    Except String HandlerOut :=
  match req.apiKey with
  | none => .ok ⟨⟨401, .err "API key required in x-api-key header"⟩, store⟩
  | some apiKey =>
    if apiKey == "" then
      .ok ⟨⟨401, .err "API key required in x-api-key header"⟩, store⟩
    else
      match authenticateApiKey env apiKey with
      | .error e => .error e
      | .ok keyData =>
        let reqPerm := requiredPermission req.method
        if !(keyData.permissions.contains reqPerm || keyData.permissions.contains "admin") then
          .ok ⟨⟨403, .err ("Insufficient permissions. Required: " ++ reqPerm)⟩, store⟩
        else
          match checkRateLimit env keyData.api_key_id "ai-ideas" keyData.rate_limit_per_hour with
          | .error e => .error e
          | .ok _ => dispatch env store req keyData

/-- The full handler: the preflight early return, the `try` body, and the
`catch` block, which answers every thrown error with HTTP 500 and the error's
message. -/
def serveAiIdeas (env : Env) (store : List Idea) (req : Request) : HandlerOut :=
  if req.method == "OPTIONS" then ⟨⟨200, .empty⟩, store⟩
  else
    match serveCore env store req with
    | .ok out => out
    | .error msg => ⟨⟨500, .err msg⟩, store⟩

/-! ## Concrete fixtures used by the witnesses and counterexamples -/

def aliceKeyRow : KeyRow :=
  { api_key_id := "k1", user_id := "alice", permissions := ["read", "write"],
    rate_limit_per_hour := 100, is_valid := true }

def bobKeyRow : KeyRow :=
  { api_key_id := "k2", user_id := "bob", permissions := ["read", "write"],
    rate_limit_per_hour := 100, is_valid := true }

/-- Two active keys, an always-allowing rate limiter. -/
def demoEnv : Env :=
  { validate_api_key := fun k =>
      if k == "iah_alice" then .ok [aliceKeyRow]
      else if k == "iah_bob" then .ok [bobKeyRow]
      else .ok []
    check_rate_limit := fun _ _ _ => .ok true
    freshId := "new-id", now := 50 }

def idea1 : Idea :=
  { id := "idea1", user_id := "alice", title := "First", description := some "notes",
    status := "idea", tags := [], color := "#FFF", created_at := 1, updated_at := 1 }

def demoStore : List Idea := [idea1]

def basePath : String := "/ai-ideas"
def idPath : String := "/ai-ideas/idea1"

def chars (s : String) : List Char := s.data

def c1GetReq : Request := { method := "GET", path := idPath, apiKey := some "iah_bob" }

def c1PostBody : Payload :=
  { title := some (.str "Test"), user_id := some (.str "mallory") }

def c1PostReq : Request :=
  { method := "POST", path := basePath, apiKey := some "iah_alice", body := c1PostBody }

def c1PostRec : Idea := insertIdea demoEnv "alice" "Test" none c1PostBody

def c1PutReq : Request :=
  { method := "PUT", path := idPath, apiKey := some "iah_bob",
    body := { title := some (.str "Hacked") } }

def c2PutReq : Request :=
  { method := "PUT", path := idPath, apiKey := some "iah_alice",
    body := { title := some (.str "Take over"), user_id := some (.str "mallory") } }

/-- A credential store whose RPC fails. -/
def errEnv : Env := { demoEnv with validate_api_key := fun _ => .error () }

/-- A credential store that resolves every key to an expired/inactive row. -/
def expiredEnv : Env :=
  { demoEnv with validate_api_key := fun _ => .ok [{ aliceKeyRow with is_valid := false }] }

/-- A rate limiter that denies every request. -/
def rlDenyEnv : Env := { demoEnv with check_rate_limit := fun _ _ _ => .ok false }

/-- A rate limiter whose RPC fails. -/
def rlErrEnv : Env := { demoEnv with check_rate_limit := fun _ _ _ => .error () }

/-- A DELETE of `idea1` with the given credential header. -/
def delReq (key : Option String) : Request :=
  { method := "DELETE", path := idPath, apiKey := key }

def c7DelReq : Request := { method := "DELETE", path := idPath, apiKey := some "iah_alice" }

def c7GetReq : Request := { method := "GET", path := idPath, apiKey := some "iah_alice" }

def c7DelMissReq : Request :=
  { method := "DELETE", path := "/ai-ideas/nothere", apiKey := some "iah_alice" }

def archived1 : Idea := { idea1 with status := "archived", updated_at := 50 }

/-- A PUT whose body omits `title` (only a description). -/
def c5NoTitleReq : Request :=
  { method := "PUT", path := idPath, apiKey := some "iah_alice",
    body := { description := some (.str "x") } }

/-- A PUT whose body carries only a title. -/
def c5PutReq : Request :=
  { method := "PUT", path := idPath, apiKey := some "iah_alice",
    body := { title := some (.str "New title") } }

/-- The same body against an id that matches nothing. -/
def c5PutMissReq : Request :=
  { method := "PUT", path := "/ai-ideas/nothere", apiKey := some "iah_alice",
    body := { title := some (.str "New title") } }

def c8Limit0Req : Request :=
  { method := "GET", path := basePath, apiKey := some "iah_alice", queryLimit := some "0" }

def c8BogusStatusReq : Request :=
  { method := "GET", path := basePath, apiKey := some "iah_alice", queryStatus := some "bogus" }

def c8Limit500Req : Request :=
  { method := "GET", path := basePath, apiKey := some "iah_alice", queryLimit := some "500" }

/-- A payload whose `color` is present but the empty string. -/
def c9Payload : Payload := { title := some (.str "ok"), color := some (.str "") }

def c9BadColor : Payload := { title := some (.str "ok"), color := some (.str "#GGGGGG") }

def c9GoodColor : Payload := { title := some (.str "ok"), color := some (.str "#AaBb01") }

/-- A PUT whose body sets `title` to the empty string. -/
def c10TitleEmptyReq : Request :=
  { method := "PUT", path := idPath, apiKey := some "iah_alice",
    body := { title := some (.str ""), description := some (.str "x") } }

/-- A PUT that tries to clear the description with an empty string. -/
def c10ClearDescReq : Request :=
  { method := "PUT", path := idPath, apiKey := some "iah_alice",
    body := { title := some (.str "Kept"), description := some (.str "") } }

/-! # Theorems -/

/-! ## Pipeline lemmas -/

lemma serveCore_authed (env : Env) (store : List Idea) (req : Request) (k : String)
    (krow : KeyRow) (b : Bool)
    (hkey : req.apiKey = some k) (hk : (k == "") = false)
    (hauth : authenticateApiKey env k = .ok krow)
    (hperm : (krow.permissions.contains (requiredPermission req.method) ||
              krow.permissions.contains "admin") = true)
    (hrate : checkRateLimit env krow.api_key_id "ai-ideas" krow.rate_limit_per_hour = .ok b) :
    serveCore env store req = dispatch env store req krow := by
  simp only [serveCore, hkey, hk, hauth, hperm, hrate, Bool.not_true, Bool.false_eq_true,
    if_false, Bool.not_eq_true']

lemma serveAiIdeas_not_options (env : Env) (store : List Idea) (req : Request)
    (h : (req.method == "OPTIONS") = false) :
    serveAiIdeas env store req =
      (match serveCore env store req with
       | .ok out => out
       | .error msg => ⟨⟨500, .err msg⟩, store⟩) := by
  simp only [serveAiIdeas, h, Bool.false_eq_true, if_false]

lemma filter_matches_nil {store : List Idea} {id uid : String}
    (h : ∀ r ∈ store, r.id = id → r.user_id ≠ uid) :
    store.filter (matchesIdOwner id uid) = [] := by
  rw [List.filter_eq_nil_iff]
  intro r hr
  simp only [matchesIdOwner, Bool.and_eq_true, beq_iff_eq, not_and]
  exact h r hr

lemma mem_updateWhere_fst_of_not_owner {store : List Idea} {id uid : String}
    {f : Idea → Idea} {r : Idea} (hr : r ∈ store) (h : r.user_id ≠ uid) :
    r ∈ (updateWhere store id uid f).1 := by
  simp only [updateWhere]
  refine List.mem_map.mpr ⟨r, hr, ?_⟩
  simp [matchesIdOwner, h]

/-- An authenticated GET of a single idea returns 404 whenever every stored
record carrying the requested id belongs to a different owner. -/
lemma serve_get_single_404_foreign (env : Env) (store : List Idea) (req : Request)
    (k : String) (krow : KeyRow) (b : Bool)
    (hm : req.method = "GET")
    (hkey : req.apiKey = some k) (hk : (k == "") = false)
    (hauth : authenticateApiKey env k = .ok krow)
    (hperm : (krow.permissions.contains "read" || krow.permissions.contains "admin") = true)
    (hrate : checkRateLimit env krow.api_key_id "ai-ideas" krow.rate_limit_per_hour = .ok b)
    (hid : (lastSegment req.path != "" && lastSegment req.path != "ai-ideas") = true)
    (hown : ∀ r ∈ store, r.id = lastSegment req.path → r.user_id ≠ krow.user_id) :
    (serveAiIdeas env store req).resp = ⟨404, .err "Idea not found"⟩ := by
  have hperm' : (krow.permissions.contains (requiredPermission req.method) ||
      krow.permissions.contains "admin") = true := by
    rw [hm]; exact hperm
  rw [serveAiIdeas_not_options env store req (by rw [hm]; rfl),
    serveCore_authed env store req k krow b hkey hk hauth hperm' hrate]
  simp only [dispatch, hm, hid, getSingle, filter_matches_nil hown]
  rfl

/-- Every record in the store after an authenticated POST was already there or
carries the key's user id. -/
lemma serve_post_store_owner (env : Env) (store : List Idea) (req : Request)
    (k : String) (krow : KeyRow) (b : Bool)
    (hm : req.method = "POST")
    (hkey : req.apiKey = some k) (hk : (k == "") = false)
    (hauth : authenticateApiKey env k = .ok krow)
    (hperm : (krow.permissions.contains "write" || krow.permissions.contains "admin") = true)
    (hrate : checkRateLimit env krow.api_key_id "ai-ideas" krow.rate_limit_per_hour = .ok b) :
    ∀ r ∈ (serveAiIdeas env store req).store, r ∈ store ∨ r.user_id = krow.user_id := by
  have hperm' : (krow.permissions.contains (requiredPermission req.method) ||
      krow.permissions.contains "admin") = true := by
    rw [hm]; exact hperm
  rw [serveAiIdeas_not_options env store req (by rw [hm]; rfl),
    serveCore_authed env store req k krow b hkey hk hauth hperm' hrate]
  rcases hdis : dispatch env store req krow with e | out
  · intro r hr; exact Or.inl hr
  · simp only [dispatch, hm] at hdis
    simp only [show (("POST" : String) == "GET") = false from rfl,
      show (("POST" : String) == "POST") = true from rfl, Bool.false_eq_true, if_false,
      if_true] at hdis
    intro r hr
    split at hdis
    · cases hdis; exact Or.inl hr
    · split at hdis
      case _ ts heq =>
        split at hdis
        · cases hdis
        · split at hdis
          · cases hdis
          · cases hdis
            rcases List.mem_append.mp hr with h | h
            · exact Or.inl h
            · right
              simp only [List.mem_singleton] at h
              subst h
              rfl
      case _ => cases hdis

/-- An authenticated PUT or DELETE keeps every record owned by someone other
than the key's user untouched in the store. -/
lemma serve_mutation_preserves_foreign (env : Env) (store : List Idea) (req : Request)
    (k : String) (krow : KeyRow) (b : Bool)
    (hm : req.method = "PUT" ∨ req.method = "DELETE")
    (hkey : req.apiKey = some k) (hk : (k == "") = false)
    (hauth : authenticateApiKey env k = .ok krow)
    (hperm : (krow.permissions.contains "write" || krow.permissions.contains "admin") = true)
    (hrate : checkRateLimit env krow.api_key_id "ai-ideas" krow.rate_limit_per_hour = .ok b) :
    ∀ r ∈ store, r.user_id ≠ krow.user_id → r ∈ (serveAiIdeas env store req).store := by
  have hperm' : (krow.permissions.contains (requiredPermission req.method) ||
      krow.permissions.contains "admin") = true := by
    rcases hm with hm | hm <;> rw [hm] <;> exact hperm
  have hopt : (req.method == "OPTIONS") = false := by
    rcases hm with hm | hm <;> rw [hm] <;> rfl
  rw [serveAiIdeas_not_options env store req hopt,
    serveCore_authed env store req k krow b hkey hk hauth hperm' hrate]
  rcases hdis : dispatch env store req krow with e | out
  · intro r hr _; exact hr
  · intro r hr hruid
    rcases hm with hm | hm <;>
      simp only [dispatch, hm] at hdis <;>
      simp only [show (("PUT" : String) == "GET") = false from rfl,
        show (("PUT" : String) == "POST") = false from rfl,
        show (("PUT" : String) == "PUT") = true from rfl,
        show (("DELETE" : String) == "GET") = false from rfl,
        show (("DELETE" : String) == "POST") = false from rfl,
        show (("DELETE" : String) == "PUT") = false from rfl,
        show (("DELETE" : String) == "DELETE") = true from rfl,
        Bool.false_eq_true, if_false, if_true] at hdis
    · split at hdis
      · cases hdis; exact hr
      · split at hdis
        · cases hdis; exact hr
        · split at hdis
          · cases hdis
          · split at hdis
            case _ newStore r1 heq =>
              cases hdis
              show r ∈ newStore
              have h1 : (updateWhere store (lastSegment req.path) krow.user_id _).1 = newStore :=
                congrArg Prod.fst heq
              rw [← h1]
              exact mem_updateWhere_fst_of_not_owner hr hruid
            case _ newStore l hne heq =>
              cases hdis
              show r ∈ newStore
              have h1 : (updateWhere store (lastSegment req.path) krow.user_id _).1 = newStore :=
                congrArg Prod.fst heq
              rw [← h1]
              exact mem_updateWhere_fst_of_not_owner hr hruid
    · split at hdis
      · cases hdis; exact hr
      · split at hdis
        case _ newStore r1 heq =>
          cases hdis
          show r ∈ newStore
          have h1 : (updateWhere store (lastSegment req.path) krow.user_id _).1 = newStore :=
            congrArg Prod.fst heq
          rw [← h1]
          exact mem_updateWhere_fst_of_not_owner hr hruid
        case _ newStore l hne heq =>
          cases hdis
          show r ∈ newStore
          have h1 : (updateWhere store (lastSegment req.path) krow.user_id _).1 = newStore :=
            congrArg Prod.fst heq
          rw [← h1]
          exact mem_updateWhere_fst_of_not_owner hr hruid

/-! ## C1 -/

/-- C1: Owner isolation. For every authenticated request: (i) a GET of a
single idea whose every id-matching record has a different owner returns 404;
(ii) a POST only adds records whose `user_id` equals the key's user id,
regardless of any owner field in the payload; (iii) a PUT or DELETE leaves
every record owned by a different principal untouched in the store. -/
theorem c1_owner_isolation :
    (∀ (env : Env) (store : List Idea) (req : Request) (k : String) (krow : KeyRow) (b : Bool),
      req.method = "GET" →
      req.apiKey = some k → (k == "") = false →
      authenticateApiKey env k = .ok krow →
      (krow.permissions.contains "read" || krow.permissions.contains "admin") = true →
      checkRateLimit env krow.api_key_id "ai-ideas" krow.rate_limit_per_hour = .ok b →
      (lastSegment req.path != "" && lastSegment req.path != "ai-ideas") = true →
      (∀ r ∈ store, r.id = lastSegment req.path → r.user_id ≠ krow.user_id) →
      (serveAiIdeas env store req).resp = ⟨404, .err "Idea not found"⟩) ∧
    (∀ (env : Env) (store : List Idea) (req : Request) (k : String) (krow : KeyRow) (b : Bool),
      req.method = "POST" →
      req.apiKey = some k → (k == "") = false →
      authenticateApiKey env k = .ok krow →
      (krow.permissions.contains "write" || krow.permissions.contains "admin") = true →
      checkRateLimit env krow.api_key_id "ai-ideas" krow.rate_limit_per_hour = .ok b →
      ∀ r ∈ (serveAiIdeas env store req).store, r ∈ store ∨ r.user_id = krow.user_id) ∧
    (∀ (env : Env) (store : List Idea) (req : Request) (k : String) (krow : KeyRow) (b : Bool),
      req.method = "PUT" ∨ req.method = "DELETE" →
      req.apiKey = some k → (k == "") = false →
      authenticateApiKey env k = .ok krow →
      (krow.permissions.contains "write" || krow.permissions.contains "admin") = true →
      checkRateLimit env krow.api_key_id "ai-ideas" krow.rate_limit_per_hour = .ok b →
      ∀ r ∈ store, r.user_id ≠ krow.user_id → r ∈ (serveAiIdeas env store req).store) :=
  ⟨serve_get_single_404_foreign, serve_post_store_owner, serve_mutation_preserves_foreign⟩

/-- C1 witness: Bob's GET of Alice's idea returns 404; Alice's POST carrying
`user_id: "mallory"` stores the record under `alice`; Bob's PUT on Alice's
idea leaves Alice's record untouched. -/
theorem c1_owner_isolation_witness :
    (serveAiIdeas demoEnv demoStore c1GetReq).resp = ⟨404, .err "Idea not found"⟩ ∧
    (c1PostRec ∈ demoStore ∨ c1PostRec.user_id = "alice") ∧
    idea1 ∈ (serveAiIdeas demoEnv demoStore c1PutReq).store :=
  ⟨c1_owner_isolation.1 demoEnv demoStore c1GetReq "iah_bob" bobKeyRow true
      rfl rfl rfl rfl rfl rfl rfl (by decide),
   c1_owner_isolation.2.1 demoEnv demoStore c1PostReq "iah_alice" aliceKeyRow true
      rfl rfl rfl rfl rfl rfl c1PostRec (by decide),
   c1_owner_isolation.2.2 demoEnv demoStore c1PutReq "iah_bob" bobKeyRow true
      (Or.inl rfl) rfl rfl rfl rfl rfl idea1 (by decide) (by decide)⟩

lemma filter_map_update (store : List Idea) (id uid : String) (f : Idea → Idea)
    (hf : ∀ x, matchesIdOwner id uid x = true → matchesIdOwner id uid (f x) = true) :
    (store.map fun x => if matchesIdOwner id uid x then f x else x).filter
        (matchesIdOwner id uid) =
      (store.filter (matchesIdOwner id uid)).map f := by
  induction store with
  | nil => rfl
  | cons x xs ih =>
    simp only [List.map_cons]
    by_cases hx : matchesIdOwner id uid x = true
    · rw [if_pos hx, List.filter_cons_of_pos (hf x hx), List.filter_cons_of_pos hx,
        List.map_cons, ih]
    · rw [if_neg hx, List.filter_cons_of_neg hx, List.filter_cons_of_neg hx, ih]

lemma map_update_id_of_no_match (store : List Idea) (id uid : String) (f : Idea → Idea)
    (h : store.filter (matchesIdOwner id uid) = []) :
    (store.map fun x => if matchesIdOwner id uid x then f x else x) = store := by
  have hall := List.filter_eq_nil_iff.mp h
  calc store.map (fun x => if matchesIdOwner id uid x then f x else x)
      = store.map (fun x => x) := by
        apply List.map_congr_left
        intro a ha
        simp [hall a ha]
    _ = store := List.map_id' store

lemma bool_or_false_left {a c : Bool} (h : (a || c) = false) : (!a && !c) = true := by
  cases a <;> cases c <;> simp_all

/-- Authenticated DELETE on the unique record matching (id, owner): the row is
archived in place, nothing is removed, and a subsequent GET by the same key
returns the archived row. -/
lemma serve_delete_archives (env : Env) (store : List Idea) (req : Request)
    (k : String) (krow : KeyRow) (b : Bool) (r : Idea)
    (hm : req.method = "DELETE")
    (hkey : req.apiKey = some k) (hk : (k == "") = false)
    (hauth : authenticateApiKey env k = .ok krow)
    (hperm : (krow.permissions.contains "write" || krow.permissions.contains "admin") = true)
    (hrate : checkRateLimit env krow.api_key_id "ai-ideas" krow.rate_limit_per_hour = .ok b)
    (hid : (lastSegment req.path == "" || lastSegment req.path == "ai-ideas") = false)
    (hmatch : store.filter (matchesIdOwner (lastSegment req.path) krow.user_id) = [r]) :
    (serveAiIdeas env store req).resp =
      ⟨200, .deleted { r with status := "archived", updated_at := env.now }
        "Idea archived successfully"⟩ ∧
    (serveAiIdeas env store req).store.length = store.length ∧
    { r with status := "archived", updated_at := env.now } ∈ (serveAiIdeas env store req).store ∧
    (∀ req2 : Request, req2.method = "GET" → req2.path = req.path → req2.apiKey = some k →
      (krow.permissions.contains "read" || krow.permissions.contains "admin") = true →
      (serveAiIdeas env (serveAiIdeas env store req).store req2).resp =
        ⟨200, .one { r with status := "archived", updated_at := env.now }⟩) := by
  have hperm' : (krow.permissions.contains (requiredPermission req.method) ||
      krow.permissions.contains "admin") = true := by rw [hm]; exact hperm
  have harch : ∀ x, matchesIdOwner (lastSegment req.path) krow.user_id x = true →
      matchesIdOwner (lastSegment req.path) krow.user_id
        { x with status := "archived", updated_at := env.now } = true := by
    intro x hx; simpa [matchesIdOwner] using hx
  have hout : serveAiIdeas env store req =
      ⟨⟨200, .deleted { r with status := "archived", updated_at := env.now }
          "Idea archived successfully"⟩,
        store.map fun x => if matchesIdOwner (lastSegment req.path) krow.user_id x then
          { x with status := "archived", updated_at := env.now } else x⟩ := by
    rw [serveAiIdeas_not_options env store req (by rw [hm]; rfl),
      serveCore_authed env store req k krow b hkey hk hauth hperm' hrate]
    simp only [dispatch, hm,
      show (("DELETE" : String) == "GET") = false from rfl,
      show (("DELETE" : String) == "POST") = false from rfl,
      show (("DELETE" : String) == "PUT") = false from rfl,
      show (("DELETE" : String) == "DELETE") = true from rfl,
      Bool.false_eq_true, if_false, if_true, hid, updateWhere, hmatch, List.map_cons,
      List.map_nil]
  have hfil : ((serveAiIdeas env store req).store).filter
      (matchesIdOwner (lastSegment req.path) krow.user_id) =
      [{ r with status := "archived", updated_at := env.now }] := by
    rw [hout]
    show (store.map _).filter _ = _
    rw [filter_map_update store (lastSegment req.path) krow.user_id _ harch, hmatch]
    rfl
  refine ⟨by rw [hout], by rw [hout]; exact List.length_map store _, ?_, ?_⟩
  · have : { r with status := "archived", updated_at := env.now } ∈
        ((serveAiIdeas env store req).store).filter
          (matchesIdOwner (lastSegment req.path) krow.user_id) := by
      rw [hfil]; exact List.mem_singleton.mpr rfl
    exact (List.mem_filter.mp this).1
  · intro req2 hm2 hp2 hkey2 hperm2
    have hperm2' : (krow.permissions.contains (requiredPermission req2.method) ||
        krow.permissions.contains "admin") = true := by rw [hm2]; exact hperm2
    rw [serveAiIdeas_not_options env _ req2 (by rw [hm2]; rfl),
      serveCore_authed env _ req2 k krow b hkey2 hk hauth hperm2' hrate]
    have hid2 : (lastSegment req.path != "" && lastSegment req.path != "ai-ideas") = true :=
      bool_or_false_left hid
    simp only [dispatch, hm2,
      show (("GET" : String) == "GET") = true from rfl, if_true, hp2, hid2, getSingle, hfil]

/-- Authenticated DELETE with no record matching (id, owner): 404 and the
store is unchanged. -/
lemma serve_delete_notfound (env : Env) (store : List Idea) (req : Request)
    (k : String) (krow : KeyRow) (b : Bool)
    (hm : req.method = "DELETE")
    (hkey : req.apiKey = some k) (hk : (k == "") = false)
    (hauth : authenticateApiKey env k = .ok krow)
    (hperm : (krow.permissions.contains "write" || krow.permissions.contains "admin") = true)
    (hrate : checkRateLimit env krow.api_key_id "ai-ideas" krow.rate_limit_per_hour = .ok b)
    (hid : (lastSegment req.path == "" || lastSegment req.path == "ai-ideas") = false)
    (hmatch : store.filter (matchesIdOwner (lastSegment req.path) krow.user_id) = []) :
    (serveAiIdeas env store req).resp =
      ⟨404, .err "Failed to delete idea or idea not found"⟩ ∧
    (serveAiIdeas env store req).store = store := by
  have hperm' : (krow.permissions.contains (requiredPermission req.method) ||
      krow.permissions.contains "admin") = true := by rw [hm]; exact hperm
  rw [serveAiIdeas_not_options env store req (by rw [hm]; rfl),
    serveCore_authed env store req k krow b hkey hk hauth hperm' hrate]
  simp only [dispatch, hm,
    show (("DELETE" : String) == "GET") = false from rfl,
    show (("DELETE" : String) == "POST") = false from rfl,
    show (("DELETE" : String) == "PUT") = false from rfl,
    show (("DELETE" : String) == "DELETE") = true from rfl,
    Bool.false_eq_true, if_false, if_true, hid, updateWhere, hmatch, List.map_nil]
  exact ⟨trivial, map_update_id_of_no_match store _ _ _ hmatch⟩

/-! ## C2 -/

/-- C2: a PUT whose body carries a `user_id` field rewrites the stored
record's owner — Alice's key, updating her own record `idea1` with
`{title: "Take over", user_id: "mallory"}`, succeeds with 200 and leaves the
record owned by `mallory`, not `alice`. The object spread in
`sanitizedUpdateData` forwards the body's `user_id` into the update patch. -/
theorem c2_put_rewrites_owner :
    idea1.user_id = "alice" ∧
    (serveAiIdeas demoEnv demoStore c2PutReq).resp =
      ⟨200, .one { idea1 with title := "Take over", user_id := "mallory", updated_at := 50 }⟩ ∧
    (serveAiIdeas demoEnv demoStore c2PutReq).store =
      [{ idea1 with title := "Take over", user_id := "mallory", updated_at := 50 }] :=
  ⟨rfl, rfl, rfl⟩

/-! ## C3 -/

/-- C3: of the five authentication failures only the missing header yields
HTTP 401; a malformed key, a credential-store error, an unknown key and an
expired/inactive key are thrown and land in the catch block, which answers
HTTP 500 — with the claimed error messages, and without touching the store. -/
theorem c3_auth_failures_return_500 :
    (serveAiIdeas demoEnv demoStore (delReq none)).resp =
      ⟨401, .err "API key required in x-api-key header"⟩ ∧
    (serveAiIdeas demoEnv demoStore (delReq (some "bad"))).resp =
      ⟨500, .err "Invalid API key format"⟩ ∧
    (serveAiIdeas errEnv demoStore (delReq (some "iah_alice"))).resp =
      ⟨500, .err "Authentication failed"⟩ ∧
    (serveAiIdeas demoEnv demoStore (delReq (some "iah_unknown"))).resp =
      ⟨500, .err "Invalid API key"⟩ ∧
    (serveAiIdeas expiredEnv demoStore (delReq (some "iah_alice"))).resp =
      ⟨500, .err "API key is expired or inactive"⟩ ∧
    (serveAiIdeas demoEnv demoStore (delReq none)).store = demoStore ∧
    (serveAiIdeas demoEnv demoStore (delReq (some "bad"))).store = demoStore ∧
    (serveAiIdeas errEnv demoStore (delReq (some "iah_alice"))).store = demoStore ∧
    (serveAiIdeas demoEnv demoStore (delReq (some "iah_unknown"))).store = demoStore ∧
    (serveAiIdeas expiredEnv demoStore (delReq (some "iah_alice"))).store = demoStore :=
  ⟨rfl, rfl, rfl, rfl, rfl, rfl, rfl, rfl, rfl, rfl⟩

/-! ## C4 -/

/-- C4: a denied rate-limit check is thrown (`throw new Error('Rate limit
exceeded')`) and lands in the catch block, which answers HTTP 500 — not 429 —
with `{error: "Rate limit exceeded"}`; the store is untouched. A rate-limiter
RPC error likewise yields 500 `"Rate limiting failed"`. -/
theorem c4_rate_limit_returns_500 :
    (serveAiIdeas rlDenyEnv demoStore (delReq (some "iah_alice"))).resp =
      ⟨500, .err "Rate limit exceeded"⟩ ∧
    (serveAiIdeas rlDenyEnv demoStore (delReq (some "iah_alice"))).store = demoStore ∧
    (serveAiIdeas rlErrEnv demoStore (delReq (some "iah_alice"))).resp =
      ⟨500, .err "Rate limiting failed"⟩ ∧
    (serveAiIdeas rlErrEnv demoStore (delReq (some "iah_alice"))).store = demoStore :=
  ⟨rfl, rfl, rfl, rfl⟩


/-! ## C7 -/

/-- C7: Logical delete. An authenticated DELETE of the unique record matching
(id, owner) answers 200 with the archived record, removes nothing (the store
keeps its length and contains the archived row), and a subsequent GET of the
same id by the same key answers 200 with the record in status `archived`; a
DELETE matching no owned record answers 404 and leaves the store unchanged. -/
theorem c7_logical_delete :
    (∀ (env : Env) (store : List Idea) (req : Request) (k : String) (krow : KeyRow)
        (b : Bool) (r : Idea),
      req.method = "DELETE" →
      req.apiKey = some k → (k == "") = false →
      authenticateApiKey env k = .ok krow →
      (krow.permissions.contains "write" || krow.permissions.contains "admin") = true →
      checkRateLimit env krow.api_key_id "ai-ideas" krow.rate_limit_per_hour = .ok b →
      (lastSegment req.path == "" || lastSegment req.path == "ai-ideas") = false →
      store.filter (matchesIdOwner (lastSegment req.path) krow.user_id) = [r] →
      (serveAiIdeas env store req).resp =
        ⟨200, .deleted { r with status := "archived", updated_at := env.now }
          "Idea archived successfully"⟩ ∧
      (serveAiIdeas env store req).store.length = store.length ∧
      { r with status := "archived", updated_at := env.now } ∈ (serveAiIdeas env store req).store ∧
      (∀ req2 : Request, req2.method = "GET" → req2.path = req.path → req2.apiKey = some k →
        (krow.permissions.contains "read" || krow.permissions.contains "admin") = true →
        (serveAiIdeas env (serveAiIdeas env store req).store req2).resp =
          ⟨200, .one { r with status := "archived", updated_at := env.now }⟩)) ∧
    (∀ (env : Env) (store : List Idea) (req : Request) (k : String) (krow : KeyRow) (b : Bool),
      req.method = "DELETE" →
      req.apiKey = some k → (k == "") = false →
      authenticateApiKey env k = .ok krow →
      (krow.permissions.contains "write" || krow.permissions.contains "admin") = true →
      checkRateLimit env krow.api_key_id "ai-ideas" krow.rate_limit_per_hour = .ok b →
      (lastSegment req.path == "" || lastSegment req.path == "ai-ideas") = false →
      store.filter (matchesIdOwner (lastSegment req.path) krow.user_id) = [] →
      (serveAiIdeas env store req).resp =
        ⟨404, .err "Failed to delete idea or idea not found"⟩ ∧
      (serveAiIdeas env store req).store = store) :=
  ⟨serve_delete_archives, serve_delete_notfound⟩

/-- C7 witness: Alice deletes `idea1`: 200 with the archived record, the store
still holds one record — the archived one — and her subsequent GET answers the
archived record; deleting a non-existent id answers 404, store unchanged. -/
theorem c7_logical_delete_witness :
    (serveAiIdeas demoEnv demoStore c7DelReq).resp =
      ⟨200, .deleted archived1 "Idea archived successfully"⟩ ∧
    (serveAiIdeas demoEnv demoStore c7DelReq).store.length = demoStore.length ∧
    archived1 ∈ (serveAiIdeas demoEnv demoStore c7DelReq).store ∧
    (serveAiIdeas demoEnv (serveAiIdeas demoEnv demoStore c7DelReq).store c7GetReq).resp =
      ⟨200, .one archived1⟩ ∧
    (serveAiIdeas demoEnv demoStore c7DelMissReq).resp =
      ⟨404, .err "Failed to delete idea or idea not found"⟩ ∧
    (serveAiIdeas demoEnv demoStore c7DelMissReq).store = demoStore := by
  obtain ⟨h1, h2, h3, h4⟩ := c7_logical_delete.1 demoEnv demoStore c7DelReq "iah_alice"
    aliceKeyRow true idea1 rfl rfl rfl rfl rfl rfl rfl (by decide)
  obtain ⟨h5, h6⟩ := c7_logical_delete.2 demoEnv demoStore c7DelMissReq "iah_alice"
    aliceKeyRow true rfl rfl rfl rfl rfl rfl rfl (by decide)
  exact ⟨h1, h2, h3, h4 c7GetReq rfl rfl rfl rfl, h5, h6⟩


/-! ## PUT and validator helper lemmas -/

/-- Authenticated PUT whose body validates and whose patch builds: the unique
(id, owner) match is rewritten through the patch; rows not matching the
(id, owner) scope survive unchanged. -/
lemma serve_put_update_single (env : Env) (store : List Idea) (req : Request)
    (k : String) (krow : KeyRow) (b : Bool) (r : Idea) (patch : UpdatePatch)
    (hm : req.method = "PUT")
    (hkey : req.apiKey = some k) (hk : (k == "") = false)
    (hauth : authenticateApiKey env k = .ok krow)
    (hperm : (krow.permissions.contains "write" || krow.permissions.contains "admin") = true)
    (hrate : checkRateLimit env krow.api_key_id "ai-ideas" krow.rate_limit_per_hour = .ok b)
    (hid : (lastSegment req.path == "" || lastSegment req.path == "ai-ideas") = false)
    (hval : validateIdeaData req.body = [])
    (hbp : buildUpdatePatch req.body = .ok patch)
    (hmatch : store.filter (matchesIdOwner (lastSegment req.path) krow.user_id) = [r]) :
    (serveAiIdeas env store req).resp = ⟨200, .one (applyPatch patch env.now r)⟩ ∧
    (∀ x ∈ store, matchesIdOwner (lastSegment req.path) krow.user_id x = false →
      x ∈ (serveAiIdeas env store req).store) := by
  have hperm' : (krow.permissions.contains (requiredPermission req.method) ||
      krow.permissions.contains "admin") = true := by rw [hm]; exact hperm
  have hout : serveAiIdeas env store req =
      ⟨⟨200, .one (applyPatch patch env.now r)⟩,
        store.map fun x => if matchesIdOwner (lastSegment req.path) krow.user_id x then
          applyPatch patch env.now x else x⟩ := by
    rw [serveAiIdeas_not_options env store req (by rw [hm]; rfl),
      serveCore_authed env store req k krow b hkey hk hauth hperm' hrate]
    simp only [dispatch, hm,
      show (("PUT" : String) == "GET") = false from rfl,
      show (("PUT" : String) == "POST") = false from rfl,
      show (("PUT" : String) == "PUT") = true from rfl,
      Bool.false_eq_true, if_false, if_true, hid, hval,
      show (([] : List String) != []) = false from rfl, hbp, updateWhere, hmatch,
      List.map_cons, List.map_nil]
  refine ⟨by rw [hout], ?_⟩
  intro x hx hxm
  rw [hout]
  show x ∈ store.map _
  refine List.mem_map.mpr ⟨x, hx, ?_⟩
  rw [if_neg (by rw [hxm]; exact Bool.false_ne_true)]

/-- Authenticated PUT whose body validates but matches no owned record:
404 and the store is unchanged. -/
lemma serve_put_notfound (env : Env) (store : List Idea) (req : Request)
    (k : String) (krow : KeyRow) (b : Bool) (patch : UpdatePatch)
    (hm : req.method = "PUT")
    (hkey : req.apiKey = some k) (hk : (k == "") = false)
    (hauth : authenticateApiKey env k = .ok krow)
    (hperm : (krow.permissions.contains "write" || krow.permissions.contains "admin") = true)
    (hrate : checkRateLimit env krow.api_key_id "ai-ideas" krow.rate_limit_per_hour = .ok b)
    (hid : (lastSegment req.path == "" || lastSegment req.path == "ai-ideas") = false)
    (hval : validateIdeaData req.body = [])
    (hbp : buildUpdatePatch req.body = .ok patch)
    (hmatch : store.filter (matchesIdOwner (lastSegment req.path) krow.user_id) = []) :
    (serveAiIdeas env store req).resp =
      ⟨404, .err "Failed to update idea or idea not found"⟩ ∧
    (serveAiIdeas env store req).store = store := by
  have hperm' : (krow.permissions.contains (requiredPermission req.method) ||
      krow.permissions.contains "admin") = true := by rw [hm]; exact hperm
  rw [serveAiIdeas_not_options env store req (by rw [hm]; rfl),
    serveCore_authed env store req k krow b hkey hk hauth hperm' hrate]
  simp only [dispatch, hm,
    show (("PUT" : String) == "GET") = false from rfl,
    show (("PUT" : String) == "POST") = false from rfl,
    show (("PUT" : String) == "PUT") = true from rfl,
    Bool.false_eq_true, if_false, if_true, hid, hval,
    show (([] : List String) != []) = false from rfl, hbp, updateWhere, hmatch,
    List.map_nil]
  exact ⟨trivial, map_update_id_of_no_match store _ _ _ hmatch⟩

/-- Authenticated PUT whose body fails validation: 400 with the error list and
no update. -/
lemma serve_put_invalid (env : Env) (store : List Idea) (req : Request)
    (k : String) (krow : KeyRow) (b : Bool)
    (hm : req.method = "PUT")
    (hkey : req.apiKey = some k) (hk : (k == "") = false)
    (hauth : authenticateApiKey env k = .ok krow)
    (hperm : (krow.permissions.contains "write" || krow.permissions.contains "admin") = true)
    (hrate : checkRateLimit env krow.api_key_id "ai-ideas" krow.rate_limit_per_hour = .ok b)
    (hid : (lastSegment req.path == "" || lastSegment req.path == "ai-ideas") = false)
    (hval : (validateIdeaData req.body != []) = true) :
    (serveAiIdeas env store req).resp =
      ⟨400, .errDetails "Validation failed" (validateIdeaData req.body)⟩ ∧
    (serveAiIdeas env store req).store = store := by
  have hperm' : (krow.permissions.contains (requiredPermission req.method) ||
      krow.permissions.contains "admin") = true := by rw [hm]; exact hperm
  rw [serveAiIdeas_not_options env store req (by rw [hm]; rfl),
    serveCore_authed env store req k krow b hkey hk hauth hperm' hrate]
  simp only [dispatch, hm,
    show (("PUT" : String) == "GET") = false from rfl,
    show (("PUT" : String) == "POST") = false from rfl,
    show (("PUT" : String) == "PUT") = true from rfl,
    Bool.false_eq_true, if_false, if_true, hid, hval]
  exact ⟨trivial, trivial⟩


lemma mem_validate_title (d : Payload) :
    titleRequiredMsg ∈ validateIdeaData d ↔ badTitle d.title = true := by
  simp only [validateIdeaData, List.mem_append]
  split_ifs <;>
    simp_all [titleRequiredMsg, titleLengthMsg, descriptionMsg, statusMsg, tagsMsg, colorMsg]

lemma mem_validate_description (d : Payload) :
    descriptionMsg ∈ validateIdeaData d ↔
      (truthy d.description && !isStrVal d.description) = true := by
  simp only [validateIdeaData, List.mem_append]
  split_ifs <;>
    simp_all [titleRequiredMsg, titleLengthMsg, descriptionMsg, statusMsg, tagsMsg, colorMsg]

lemma mem_validate_status (d : Payload) :
    statusMsg ∈ validateIdeaData d ↔ (truthy d.status && badStatusVal d.status) = true := by
  simp only [validateIdeaData, List.mem_append]
  split_ifs <;>
    simp_all [titleRequiredMsg, titleLengthMsg, descriptionMsg, statusMsg, tagsMsg, colorMsg]

lemma mem_validate_tags (d : Payload) :
    tagsMsg ∈ validateIdeaData d ↔ (truthy d.tags && badTagsVal d.tags) = true := by
  simp only [validateIdeaData, List.mem_append]
  split_ifs <;>
    simp_all [titleRequiredMsg, titleLengthMsg, descriptionMsg, statusMsg, tagsMsg, colorMsg]

lemma mem_validate_color (d : Payload) :
    colorMsg ∈ validateIdeaData d ↔ (truthy d.color && badColorVal d.color) = true := by
  simp only [validateIdeaData, List.mem_append]
  split_ifs <;>
    simp_all [titleRequiredMsg, titleLengthMsg, descriptionMsg, statusMsg, tagsMsg, colorMsg]

lemma if_singleton_eq_nil {c : Bool} {m : String} :
    ((if c = true then [m] else []) = []) ↔ c = false := by
  cases c <;> simp

lemma validate_empty_iff (d : Payload) :
    validateIdeaData d = [] ↔
      badTitle d.title = false ∧
      (truthy d.title && jsLenGt500 d.title) = false ∧
      (truthy d.description && !isStrVal d.description) = false ∧
      (truthy d.status && badStatusVal d.status) = false ∧
      (truthy d.tags && badTagsVal d.tags) = false ∧
      (truthy d.color && badColorVal d.color) = false := by
  simp only [validateIdeaData, List.append_eq_nil]
  simp only [if_singleton_eq_nil]
  tauto

lemma buildUpdatePatch_title_only (d : Payload) (t : String) (tl : List Char)
    (ht : d.title = some (.str t)) (hne : (t == "") = false)
    (hsan : sanitizeMarkdown t.data = .ok tl)
    (hdesc : d.description = none) :
    buildUpdatePatch d =
      .ok ⟨some (String.mk tl), none, d.status, d.tags, d.color, d.user_id⟩ := by
  simp only [buildUpdatePatch, ht, hdesc, hne, hsan, Bool.false_eq_true, if_false]
  rfl

lemma buildUpdatePatch_falsy_desc (d : Payload) (t : String) (tl : List Char) (v : JVal)
    (ht : d.title = some (.str t)) (hne : (t == "") = false)
    (hsan : sanitizeMarkdown t.data = .ok tl)
    (hdesc : d.description = some v) (hv : truthy (some v) = false) :
    buildUpdatePatch d =
      .ok ⟨some (String.mk tl), none, d.status, d.tags, d.color, d.user_id⟩ := by
  cases v with
  | str s =>
    have hs : (s == "") = true := by
      simpa [truthy, bne] using hv
    simp only [buildUpdatePatch, ht, hdesc, hne, hsan, hs, Bool.false_eq_true, if_false, if_true]
    rfl
  | null =>
    simp only [buildUpdatePatch, ht, hdesc, hne, hsan, Bool.false_eq_true, if_false]
    simp only [truthy] at hv ⊢
    simp [hv]
    rfl
  | bool bb =>
    simp only [buildUpdatePatch, ht, hdesc, hne, hsan, Bool.false_eq_true, if_false]
    simp only [truthy] at hv ⊢
    simp [hv]
    rfl
  | num n =>
    simp only [buildUpdatePatch, ht, hdesc, hne, hsan, Bool.false_eq_true, if_false]
    simp only [truthy] at hv ⊢
    simp [hv]
    rfl
  | arr xs => simp [truthy] at hv


/-! ## C5 -/

/-- C5 counterexample: a PUT whose body omits `title` (it only carries a
description) is rejected with 400 and the title-required message — the
gateway does report a validation error for the omitted field. -/
theorem c5_counterexample :
    (serveAiIdeas demoEnv demoStore c5NoTitleReq).resp =
      ⟨400, .errDetails "Validation failed" [titleRequiredMsg]⟩ ∧
    (serveAiIdeas demoEnv demoStore c5NoTitleReq).store = demoStore :=
  ⟨rfl, rfl⟩

/-- C5 (amended): on PUT, an omitted `description`/`status`/`tags`/`color`
draws no validation error and is left untouched by the update, but `title` is
required on every PUT (an omitted title draws the title error); a validated
update is scoped to (id, ownerId) and applies the sanitized title, leaving all
other columns unchanged; no owned match yields 404 with the store unchanged. -/
theorem c5_put_partial_validation :
    (∀ d : Payload, d.description = none → descriptionMsg ∉ validateIdeaData d) ∧
    (∀ d : Payload, d.status = none → statusMsg ∉ validateIdeaData d) ∧
    (∀ d : Payload, d.tags = none → tagsMsg ∉ validateIdeaData d) ∧
    (∀ d : Payload, d.color = none → colorMsg ∉ validateIdeaData d) ∧
    (∀ d : Payload, d.title = none → titleRequiredMsg ∈ validateIdeaData d) ∧
    (∀ (env : Env) (store : List Idea) (req : Request) (k : String) (krow : KeyRow)
        (b : Bool) (r : Idea) (t : String) (tl : List Char),
      req.method = "PUT" →
      req.apiKey = some k → (k == "") = false →
      authenticateApiKey env k = .ok krow →
      (krow.permissions.contains "write" || krow.permissions.contains "admin") = true →
      checkRateLimit env krow.api_key_id "ai-ideas" krow.rate_limit_per_hour = .ok b →
      (lastSegment req.path == "" || lastSegment req.path == "ai-ideas") = false →
      req.body = ⟨some (.str t), none, none, none, none, none⟩ →
      (t == "") = false →
      sanitizeMarkdown t.data = .ok tl →
      validateIdeaData req.body = [] →
      store.filter (matchesIdOwner (lastSegment req.path) krow.user_id) = [r] →
      (serveAiIdeas env store req).resp =
        ⟨200, .one { r with title := String.mk tl, updated_at := env.now }⟩ ∧
      (∀ x ∈ store, matchesIdOwner (lastSegment req.path) krow.user_id x = false →
        x ∈ (serveAiIdeas env store req).store)) ∧
    (∀ (env : Env) (store : List Idea) (req : Request) (k : String) (krow : KeyRow)
        (b : Bool) (patch : UpdatePatch),
      req.method = "PUT" →
      req.apiKey = some k → (k == "") = false →
      authenticateApiKey env k = .ok krow →
      (krow.permissions.contains "write" || krow.permissions.contains "admin") = true →
      checkRateLimit env krow.api_key_id "ai-ideas" krow.rate_limit_per_hour = .ok b →
      (lastSegment req.path == "" || lastSegment req.path == "ai-ideas") = false →
      validateIdeaData req.body = [] →
      buildUpdatePatch req.body = .ok patch →
      store.filter (matchesIdOwner (lastSegment req.path) krow.user_id) = [] →
      (serveAiIdeas env store req).resp =
        ⟨404, .err "Failed to update idea or idea not found"⟩ ∧
      (serveAiIdeas env store req).store = store) := by
  refine ⟨?_, ?_, ?_, ?_, ?_, ?_, ?_⟩
  · intro d h; simp [mem_validate_description, h, truthy]
  · intro d h; simp [mem_validate_status, h, truthy]
  · intro d h; simp [mem_validate_tags, h, truthy]
  · intro d h; simp [mem_validate_color, h, truthy]
  · intro d h; simp [mem_validate_title, badTitle, h, truthy]
  · intro env store req k krow b r t tl hm hkey hk hauth hperm hrate hid hbody hne hsan
      hval hmatch
    have ht : req.body.title = some (.str t) := by rw [hbody]
    have hdesc : req.body.description = none := by rw [hbody]
    have hbp := buildUpdatePatch_title_only req.body t tl ht hne hsan hdesc
    have hst : req.body.status = none := by rw [hbody]
    have htg : req.body.tags = none := by rw [hbody]
    have hco : req.body.color = none := by rw [hbody]
    have hui : req.body.user_id = none := by rw [hbody]
    rw [hst, htg, hco, hui] at hbp
    obtain ⟨h1, h2⟩ := serve_put_update_single env store req k krow b r _ hm hkey hk hauth
      hperm hrate hid hval hbp hmatch
    refine ⟨?_, h2⟩
    rw [h1]
    rfl
  · intro env store req k krow b patch hm hkey hk hauth hperm hrate hid hval hbp hmatch
    exact serve_put_notfound env store req k krow b patch hm hkey hk hauth hperm hrate hid
      hval hbp hmatch

/-- C5 witness: an empty payload draws no description error but does draw the
title error; Alice's title-only PUT updates only the title; the same body
against an unknown id yields 404 with the store unchanged. -/
theorem c5_put_partial_validation_witness :
    descriptionMsg ∉ validateIdeaData {} ∧
    titleRequiredMsg ∈ validateIdeaData {} ∧
    (serveAiIdeas demoEnv demoStore c5PutReq).resp =
      ⟨200, .one { idea1 with title := "New title", updated_at := 50 }⟩ ∧
    (serveAiIdeas demoEnv demoStore c5PutMissReq).resp =
      ⟨404, .err "Failed to update idea or idea not found"⟩ ∧
    (serveAiIdeas demoEnv demoStore c5PutMissReq).store = demoStore := by
  obtain ⟨h1, _⟩ := c5_put_partial_validation.2.2.2.2.2.1 demoEnv demoStore c5PutReq
    "iah_alice" aliceKeyRow true idea1 "New title" (chars "New title") rfl rfl rfl rfl rfl
    rfl rfl rfl rfl rfl rfl rfl
  obtain ⟨h3, h4⟩ := c5_put_partial_validation.2.2.2.2.2.2 demoEnv demoStore c5PutMissReq
    "iah_alice" aliceKeyRow true ⟨some "New title", none, none, none, none, none⟩ rfl rfl rfl
    rfl rfl rfl rfl rfl rfl rfl
  exact ⟨c5_put_partial_validation.1 {} rfl, c5_put_partial_validation.2.2.2.2.1 {} rfl,
    h1, h3, h4⟩

/-! ## C8 -/

/-- C8 counterexample: `limit=0` is not raised to 1 — the response meta
reports `limit: 0`; and `status=bogus` is not rejected — the request succeeds
(HTTP 200) with the bogus value used as a filter. -/
theorem c8_counterexample :
    (serveAiIdeas demoEnv demoStore c8Limit0Req).resp =
      ⟨200, .many [] (some 0) (some 0) 0⟩ ∧
    (serveAiIdeas demoEnv demoStore c8BogusStatusReq).resp =
      ⟨200, .many [] (some 50) (some 0) 0⟩ :=
  ⟨rfl, rfl⟩

/-- C8 (amended): on a collection GET the status parameter is passed through
unvalidated as an equality filter; the effective limit is
`min(parseInt(limit), 100)` with default 50 and no lower bound; the effective
offset is `parseInt(offset)` with default 0 and no sign check; the meta object
reports the effective limit and offset alongside the data. -/
theorem c8_collection_params :
    (∀ (env : Env) (store : List Idea) (req : Request) (k : String) (krow : KeyRow)
        (b : Bool) (ideas : List Idea),
      req.method = "GET" →
      req.apiKey = some k → (k == "") = false →
      authenticateApiKey env k = .ok krow →
      (krow.permissions.contains "read" || krow.permissions.contains "admin") = true →
      checkRateLimit env krow.api_key_id "ai-ideas" krow.rate_limit_per_hour = .ok b →
      (lastSegment req.path != "" && lastSegment req.path != "ai-ideas") = false →
      ideasQuery store krow.user_id (normQuery req.queryStatus) (normQuery req.querySearch)
        (effOffset req.queryOffset) (effLimit req.queryLimit) = .ok ideas →
      (serveAiIdeas env store req).resp =
        ⟨200, .many ideas (effLimit req.queryLimit) (effOffset req.queryOffset)
          ideas.length⟩) ∧
    (∀ (s : String) (n : Int), parseIntJS s = some n → (s != "") = true →
      effLimit (some s) = some (min n 100)) ∧
    (effLimit none = some 50 ∧ effOffset none = some 0) ∧
    (∀ (s : String) (n : Int), parseIntJS s = some n → (s != "") = true →
      effOffset (some s) = some n) := by
  refine ⟨?_, ?_, ⟨rfl, rfl⟩, ?_⟩
  · intro env store req k krow b ideas hm hkey hk hauth hperm hrate hcol hq
    have hperm' : (krow.permissions.contains (requiredPermission req.method) ||
        krow.permissions.contains "admin") = true := by rw [hm]; exact hperm
    rw [serveAiIdeas_not_options env store req (by rw [hm]; rfl),
      serveCore_authed env store req k krow b hkey hk hauth hperm' hrate]
    simp only [dispatch, hm, show (("GET" : String) == "GET") = true from rfl, if_true,
      hcol, Bool.false_eq_true, if_false, hq]
  · intro s n hp hne
    simp [effLimit, hne, hp]
  · intro s n hp hne
    simp [effOffset, hne, hp]

/-- C8 witness: `limit=500` clamps to an effective limit of 100 reported in
meta; absent limit and offset default to 50 and 0; `offset=7` parses to 7. -/
theorem c8_collection_params_witness :
    (serveAiIdeas demoEnv demoStore c8Limit500Req).resp =
      ⟨200, .many [idea1] (some 100) (some 0) 1⟩ ∧
    effLimit (some "500") = some (min 500 100) ∧
    (effLimit none = some 50 ∧ effOffset none = some 0) ∧
    effOffset (some "7") = some 7 := by
  refine ⟨?_, c8_collection_params.2.1 "500" 500 rfl rfl, c8_collection_params.2.2.1,
    c8_collection_params.2.2.2 "7" 7 rfl rfl⟩
  have h := c8_collection_params.1 demoEnv demoStore c8Limit500Req "iah_alice" aliceKeyRow
    true [idea1] rfl rfl rfl rfl rfl rfl rfl rfl
  rw [h]
  rfl

/-! ## C9 -/

/-- C9 counterexample: a payload whose `color` is present but equal to the
empty string passes validation with an empty error list, although the empty
string does not match `^#[0-9A-F]{6}$/i` — the falsy guard `data.color &&`
skips the color rule. -/
theorem c9_counterexample :
    validateIdeaData c9Payload = [] ∧ isHexColor "" = false :=
  ⟨rfl, rfl⟩

/-- C9 (amended): `validate` is a pure function whose error list is empty
exactly when none of the six checks fires; a missing or whitespace-only title
always draws the title message; a present, non-empty color string that fails
the hex pattern draws the color message, and a matching one never does. The
empty-string color (and any other falsy color value) is skipped by the
truthiness guard. -/
theorem c9_validator_rules :
    (∀ d : Payload, validateIdeaData d = [] ↔
      badTitle d.title = false ∧
      (truthy d.title && jsLenGt500 d.title) = false ∧
      (truthy d.description && !isStrVal d.description) = false ∧
      (truthy d.status && badStatusVal d.status) = false ∧
      (truthy d.tags && badTagsVal d.tags) = false ∧
      (truthy d.color && badColorVal d.color) = false) ∧
    (∀ d : Payload, d.title = none → titleRequiredMsg ∈ validateIdeaData d) ∧
    (∀ (d : Payload) (s : String), d.title = some (.str s) → trimJs s.data = [] →
      titleRequiredMsg ∈ validateIdeaData d) ∧
    (∀ (d : Payload) (s : String), d.color = some (.str s) → (s == "") = false →
      isHexColor s = false → colorMsg ∈ validateIdeaData d) ∧
    (∀ (d : Payload) (s : String), d.color = some (.str s) → isHexColor s = true →
      colorMsg ∉ validateIdeaData d) := by
  refine ⟨validate_empty_iff, ?_, ?_, ?_, ?_⟩
  · intro d h; simp [mem_validate_title, badTitle, h, truthy]
  · intro d s h htrim; simp [mem_validate_title, badTitle, h, htrim]
  · intro d s h hne hhex
    have hne2 : ¬s = "" := by simpa using hne
    rw [mem_validate_color, h]
    simp [truthy, badColorVal, hhex, hne2]
  · intro d s h hhex
    rw [mem_validate_color, h]
    simp [truthy, badColorVal, hhex]

/-- C9 witness: the empty payload draws the title message; `#GGGGGG` draws the
color message; `#AaBb01` does not. -/
theorem c9_validator_rules_witness :
    titleRequiredMsg ∈ validateIdeaData {} ∧
    colorMsg ∈ validateIdeaData c9BadColor ∧
    colorMsg ∉ validateIdeaData c9GoodColor :=
  ⟨c9_validator_rules.2.1 {} rfl,
   c9_validator_rules.2.2.2.1 c9BadColor "#GGGGGG" rfl rfl rfl,
   c9_validator_rules.2.2.2.2 c9GoodColor "#AaBb01" rfl rfl⟩

/-! ## C10 -/

/-- C10 counterexample: a PUT whose body sets `title` to the empty string is
rejected with 400 (title is required), not silently accepted with the title
left unchanged. -/
theorem c10_counterexample :
    (serveAiIdeas demoEnv demoStore c10TitleEmptyReq).resp =
      ⟨400, .errDetails "Validation failed" [titleRequiredMsg]⟩ ∧
    (serveAiIdeas demoEnv demoStore c10TitleEmptyReq).store = demoStore :=
  ⟨rfl, rfl⟩

/-- C10 (amended): on PUT a falsy `description` (empty string, 0, false or
null) is silently dropped from the patch — the request succeeds and the stored
description is unchanged, so a client cannot clear a description via PUT; a
falsy `title`, by contrast, fails validation and the request is rejected with
400 before any update. -/
theorem c10_falsy_fields :
    (∀ (env : Env) (store : List Idea) (req : Request) (k : String) (krow : KeyRow)
        (b : Bool) (r : Idea) (t : String) (tl : List Char) (v : JVal),
      req.method = "PUT" →
      req.apiKey = some k → (k == "") = false →
      authenticateApiKey env k = .ok krow →
      (krow.permissions.contains "write" || krow.permissions.contains "admin") = true →
      checkRateLimit env krow.api_key_id "ai-ideas" krow.rate_limit_per_hour = .ok b →
      (lastSegment req.path == "" || lastSegment req.path == "ai-ideas") = false →
      req.body = ⟨some (.str t), some v, none, none, none, none⟩ →
      (t == "") = false →
      sanitizeMarkdown t.data = .ok tl →
      truthy (some v) = false →
      validateIdeaData req.body = [] →
      store.filter (matchesIdOwner (lastSegment req.path) krow.user_id) = [r] →
      (serveAiIdeas env store req).resp =
        ⟨200, .one { r with title := String.mk tl, updated_at := env.now }⟩) ∧
    (∀ (env : Env) (store : List Idea) (req : Request) (k : String) (krow : KeyRow)
        (b : Bool) (v : JVal),
      req.method = "PUT" →
      req.apiKey = some k → (k == "") = false →
      authenticateApiKey env k = .ok krow →
      (krow.permissions.contains "write" || krow.permissions.contains "admin") = true →
      checkRateLimit env krow.api_key_id "ai-ideas" krow.rate_limit_per_hour = .ok b →
      (lastSegment req.path == "" || lastSegment req.path == "ai-ideas") = false →
      req.body.title = some v → truthy (some v) = false →
      (serveAiIdeas env store req).resp =
        ⟨400, .errDetails "Validation failed" (validateIdeaData req.body)⟩ ∧
      titleRequiredMsg ∈ validateIdeaData req.body ∧
      (serveAiIdeas env store req).store = store) := by
  constructor
  · intro env store req k krow b r t tl v hm hkey hk hauth hperm hrate hid hbody hne hsan
      hv hval hmatch
    have ht : req.body.title = some (.str t) := by rw [hbody]
    have hdesc : req.body.description = some v := by rw [hbody]
    have hbp := buildUpdatePatch_falsy_desc req.body t tl v ht hne hsan hdesc hv
    have hst : req.body.status = none := by rw [hbody]
    have htg : req.body.tags = none := by rw [hbody]
    have hco : req.body.color = none := by rw [hbody]
    have hui : req.body.user_id = none := by rw [hbody]
    rw [hst, htg, hco, hui] at hbp
    obtain ⟨h1, _⟩ := serve_put_update_single env store req k krow b r _ hm hkey hk hauth
      hperm hrate hid hval hbp hmatch
    rw [h1]
    rfl
  · intro env store req k krow b v hm hkey hk hauth hperm hrate hid ht hv
    have hmem : titleRequiredMsg ∈ validateIdeaData req.body := by
      rw [mem_validate_title, ht]
      simp [badTitle, hv]
    have hval : (validateIdeaData req.body != []) = true := by
      have hne := List.ne_nil_of_mem hmem
      simp [bne_iff_ne, hne]
    obtain ⟨h1, h2⟩ := serve_put_invalid env store req k krow b hm hkey hk hauth hperm
      hrate hid hval
    exact ⟨h1, hmem, h2⟩

/-- C10 witness: Alice's PUT with `{title: "Kept", description: ""}` succeeds
and leaves the stored description `"notes"` in place; her PUT with
`{title: "", description: "x"}` is rejected with 400. -/
theorem c10_falsy_fields_witness :
    (serveAiIdeas demoEnv demoStore c10ClearDescReq).resp =
      ⟨200, .one { idea1 with title := "Kept", updated_at := 50 }⟩ ∧
    (serveAiIdeas demoEnv demoStore c10ClearDescReq).store =
      [{ idea1 with title := "Kept", updated_at := 50 }] ∧
    (serveAiIdeas demoEnv demoStore c10TitleEmptyReq).resp =
      ⟨400, .errDetails "Validation failed" [titleRequiredMsg]⟩ := by
  refine ⟨?_, by rfl, ?_⟩
  · exact c10_falsy_fields.1 demoEnv demoStore c10ClearDescReq "iah_alice" aliceKeyRow true
      idea1 "Kept" (chars "Kept") (.str "") rfl rfl rfl rfl rfl rfl rfl rfl rfl rfl rfl rfl
      rfl
  · exact (c10_falsy_fields.2 demoEnv demoStore c10TitleEmptyReq "iah_alice" aliceKeyRow
      true (.str "") rfl rfl rfl rfl rfl rfl rfl rfl rfl).1


/-! ## Sanitizer lemmas (C6) -/

lemma lowerChar_eq_colon {x : Char} (h : lowerChar x = ':') : x = ':' := by
  unfold lowerChar at h
  split at h
  · exfalso
    rename_i hAZ
    simp only [Bool.and_eq_true, decide_eq_true_eq] at hAZ
    obtain ⟨h1, h2⟩ := hAZ
    rw [Char.le_def] at h1 h2
    have h1' : 65 ≤ x.toNat := h1
    have h2' : x.toNat ≤ 90 := h2
    set n := x.toNat with hn
    interval_cases n <;> exact absurd h (by decide)
  · exact h

lemma ciEq_colon_false {x : Char} (hx : x ≠ ':') : ciEq ':' x = false := by
  unfold ciEq
  rw [show lowerChar ':' = ':' from by decide]
  cases hb : (':' == lowerChar x)
  · rfl
  · exact absurd (lowerChar_eq_colon (beq_iff_eq.mp hb).symm) hx

lemma stripPrefCI_none_of_colon {ps l : List Char} (hc : ':' ∈ ps)
    (hl : ∀ x ∈ l, x ≠ ':') : stripPrefCI ps l = none := by
  induction ps generalizing l with
  | nil => cases hc
  | cons p ps ih =>
    cases l with
    | nil => rfl
    | cons c cs =>
      simp only [stripPrefCI]
      rcases List.mem_cons.mp hc with h | h
      · rw [← h, ciEq_colon_false (hl c (List.mem_cons_self c cs))]
        rfl
      · split
        · exact ih h fun x hx => hl x (List.mem_cons_of_mem c hx)
        · rfl

lemma removeLitCIF_id_of_colon {ps : List Char} (hc : ':' ∈ ps) :
    ∀ (fuel : Nat) (l : List Char), (∀ x ∈ l, x ≠ ':') → removeLitCIF ps fuel l = l := by
  intro fuel
  induction fuel with
  | zero => intro l _; cases l <;> rfl
  | succ n ih =>
    intro l hl
    cases l with
    | nil => rfl
    | cons c cs =>
      simp only [removeLitCIF]
      rw [stripPrefCI_none_of_colon hc hl]
      show c :: removeLitCIF ps n cs = c :: cs
      rw [ih cs fun x hx => hl x (List.mem_cons_of_mem c hx)]

lemma removeTagsF_id {tag : List Char} :
    ∀ (fuel : Nat) (l : List Char), (∀ x ∈ l, x ≠ '<') → removeTagsF tag fuel l = l := by
  intro fuel
  induction fuel with
  | zero => intro l _; cases l <;> rfl
  | succ n ih =>
    intro l hl
    cases l with
    | nil => rfl
    | cons c cs =>
      simp only [removeTagsF]
      rw [if_neg (hl c (List.mem_cons_self c cs))]
      rw [ih cs fun x hx => hl x (List.mem_cons_of_mem c hx)]

lemma removeScriptBlocksF_id :
    ∀ (fuel : Nat) (l : List Char), (∀ x ∈ l, x ≠ '<') → removeScriptBlocksF fuel l = l := by
  intro fuel
  induction fuel with
  | zero => intro l _; cases l <;> rfl
  | succ n ih =>
    intro l hl
    cases l with
    | nil => rfl
    | cons c cs =>
      simp only [removeScriptBlocksF]
      rw [if_neg (hl c (List.mem_cons_self c cs))]
      rw [ih cs fun x hx => hl x (List.mem_cons_of_mem c hx)]

lemma foldl_removeTags_id (tags : List (List Char)) (l : List Char)
    (hl : ∀ x ∈ l, x ≠ '<') :
    tags.foldl (fun acc tag => removeTags tag acc) l = l := by
  induction tags with
  | nil => rfl
  | cons t ts ih =>
    simp only [List.foldl_cons]
    rw [show removeTags t l = l from removeTagsF_id l.length l hl, ih]

lemma hasMatchCI_false_of_colon {ps : List Char} (hc : ':' ∈ ps) :
    ∀ l : List Char, (∀ x ∈ l, x ≠ ':') → hasMatchCI ps l = false := by
  intro l
  induction l with
  | nil =>
    intro _
    cases ps with
    | nil => cases hc
    | cons p ps' => rfl
  | cons c cs ih =>
    intro hl
    simp only [hasMatchCI]
    rw [stripPrefCI_none_of_colon hc hl,
      ih fun x hx => hl x (List.mem_cons_of_mem c hx)]
    rfl

lemma trimJs_eq_rdrop (l : List Char) :
    trimJs l = List.rdropWhile isJsSpace (l.dropWhile isJsSpace) := rfl

lemma trimJs_sublist (l : List Char) : List.Sublist (trimJs l) l := by
  rw [trimJs_eq_rdrop]
  exact (List.rdropWhile_prefix _ _).sublist.trans (List.dropWhile_sublist _)

lemma trimJs_idem (l : List Char) : trimJs (trimJs l) = trimJs l := by
  rw [trimJs_eq_rdrop, trimJs_eq_rdrop]
  have hdt : (List.rdropWhile isJsSpace (l.dropWhile isJsSpace)).dropWhile isJsSpace =
      List.rdropWhile isJsSpace (l.dropWhile isJsSpace) := by
    rw [List.dropWhile_eq_self_iff]
    intro hl0
    have hpre : List.rdropWhile isJsSpace (l.dropWhile isJsSpace) <+: l.dropWhile isJsSpace :=
      List.rdropWhile_prefix _ _
    have hlen : 0 < (l.dropWhile isJsSpace).length := lt_of_lt_of_le hl0 hpre.length_le
    have hget : (List.rdropWhile isJsSpace (l.dropWhile isJsSpace)).get ⟨0, hl0⟩ =
        (l.dropWhile isJsSpace).get ⟨0, hlen⟩ := by
      simp only [List.get_eq_getElem]
      exact hpre.getElem hl0
    rw [hget]
    exact List.dropWhile_get_zero_not _ _ hlen
  rw [hdt, List.rdropWhile_idempotent]

lemma sanitizeMarkdown_plain (l : List Char)
    (h : ∀ x ∈ l, x ≠ '<' ∧ x ≠ ':')
    (hlen : l.length ≤ 10 * 1024 * 1024) :
    sanitizeMarkdown l = .ok (trimJs l) := by
  by_cases hnil : l = []
  · rw [hnil]; rfl
  · have hlt : ∀ x ∈ l, x ≠ '<' := fun x hx => (h x hx).1
    have hcl : ∀ x ∈ l, x ≠ ':' := fun x hx => (h x hx).2
    simp only [sanitizeMarkdown, if_neg hnil]
    rw [show removeScriptBlocks l = l from removeScriptBlocksF_id l.length l hlt]
    rw [foldl_removeTags_id dangerousTags l hlt]
    rw [show removeLitCI javascriptColon l = l from
      removeLitCIF_id_of_colon (by decide) l.length l hcl]
    rw [show removeLitCI dataColon l = l from
      removeLitCIF_id_of_colon (by decide) l.length l hcl]
    rw [if_neg (by omega)]


/-! ## C6 -/

/-- C6 counterexample: removing one occurrence of `javascript:` from
`"javajavascript:script:"` makes the surrounding characters form a new
occurrence: the sanitizer's single pass emits exactly `"javascript:"` —
so the output contains the forbidden substring — and a second application
yields `""`, so `sanitize (sanitize x) ≠ sanitize x`. -/
theorem c6_counterexample :
    sanitizeMarkdown (chars "javajavascript:script:") = .ok (chars "javascript:") ∧
    hasMatchCI javascriptColon (chars "javascript:") = true ∧
    sanitizeMarkdown (chars "javascript:") = .ok [] ∧
    chars "javascript:" ≠ ([] : List Char) :=
  ⟨rfl, rfl, rfl, by decide⟩

/-- C6 (amended): each replacement pass removes non-overlapping matches in one
left-to-right sweep, so removal can re-form the substring and neither
idempotence nor masking completeness holds in general; on every input free of
the trigger characters `<` and `:` (and within the 10 MiB ceiling) the
sanitizer reduces to whitespace trimming, is idempotent, and its output
contains no occurrence of `javascript:`. -/
theorem c6_sanitizer_plain :
    ∀ l : List Char, (∀ x ∈ l, x ≠ '<' ∧ x ≠ ':') → l.length ≤ 10 * 1024 * 1024 →
      sanitizeMarkdown l = .ok (trimJs l) ∧
      sanitizeMarkdown (trimJs l) = .ok (trimJs l) ∧
      hasMatchCI javascriptColon (trimJs l) = false := by
  intro l h hlen
  have hsub := trimJs_sublist l
  have hmem : ∀ x ∈ trimJs l, x ≠ '<' ∧ x ≠ ':' := fun x hx => h x (hsub.subset hx)
  have hlen2 : (trimJs l).length ≤ 10 * 1024 * 1024 := le_trans hsub.length_le hlen
  refine ⟨sanitizeMarkdown_plain l h hlen, ?_, ?_⟩
  · rw [sanitizeMarkdown_plain (trimJs l) hmem hlen2, trimJs_idem]
  · exact hasMatchCI_false_of_colon (by decide) (trimJs l) fun x hx => (hmem x hx).2

/-- C6 witness: on `"  hello world  "` the sanitizer trims to
`"hello world"`, a second application is a fixed point, and the output is
free of `javascript:`. -/
theorem c6_sanitizer_plain_witness :
    sanitizeMarkdown (chars "  hello world  ") = .ok (chars "hello world") ∧
    sanitizeMarkdown (chars "hello world") = .ok (chars "hello world") ∧
    hasMatchCI javascriptColon (chars "hello world") = false := by
  obtain ⟨h1, h2, h3⟩ := c6_sanitizer_plain (chars "  hello world  ") (by decide) (by decide)
  exact ⟨h1, h2, h3⟩

end IdeaHub
